import Mathlib

/-!
Verification of the HAOS utility-billing integrations (kunming_water,
petrochina_gas, HA-grid-south csg_client) against their specification.

Numeric values coming from Python floats are modelled as exact rationals,
and Python's `round(x, 2)` as round-half-to-even on the scaled rational.
Python's `float("inf")` upper bounds are modelled with `Option ℚ`
(`none` standing for the infinite bound).  Fallible Python code is
modelled with `Except PyExc`.
-/

namespace HAOS

/-- Python exception values relevant to this codebase.  The CSG client
defines `CSGAPIError` with subclasses `CSGHTTPError`, `InvalidCredentials`
and `NotLoggedIn` (csg_client/__init__.py lines 28-63); `QrCodeExpired`
derives from `Exception` directly; the remaining constructors model
builtin exceptions and the transport-level `requests.RequestException`. -/
inductive PyExc where
  | CSGAPIError (sta : String) (msg : Option String)
  | CSGHTTPError (code : ℕ)
  | InvalidCredentials (sta : String) (msg : Option String)
  | NotLoggedIn (sta : String) (msg : Option String)
  | QrCodeExpired
  | RequestException (msg : String)
  | ImportError (name : String)
  | NameError (name : String)
  | IndexError
  | ValueError (msg : String)
deriving DecidableEq

/-- Python classes of the exceptions above, for modelling `except` clauses. -/
inductive PyClass where
  | ExceptionC
  | CSGAPIErrorC
  | CSGHTTPErrorC
  | InvalidCredentialsC
  | NotLoggedInC
  | QrCodeExpiredC
  | RequestExceptionC
  | ImportErrorC
  | NameErrorC
  | IndexErrorC
  | ValueErrorC
deriving DecidableEq

/-- The class of each exception value. -/
def PyExc.classOf : PyExc → PyClass
  | .CSGAPIError _ _ => .CSGAPIErrorC
  | .CSGHTTPError _ => .CSGHTTPErrorC
  | .InvalidCredentials _ _ => .InvalidCredentialsC
  | .NotLoggedIn _ _ => .NotLoggedInC
  | .QrCodeExpired => .QrCodeExpiredC
  | .RequestException _ => .RequestExceptionC
  | .ImportError _ => .ImportErrorC
  | .NameError _ => .NameErrorC
  | .IndexError => .IndexErrorC
  | .ValueError _ => .ValueErrorC

/-- Direct base class, transcribed from the `class X(Y)` headers of
csg_client/__init__.py: `CSGHTTPError`, `InvalidCredentials` and
`NotLoggedIn` all derive from `CSGAPIError`; `CSGAPIError`,
`QrCodeExpired` and the builtin or requests exceptions derive from
`Exception`. -/
def PyClass.baseOf : PyClass → Option PyClass
  | .ExceptionC => none
  | .CSGAPIErrorC => some .ExceptionC
  | .CSGHTTPErrorC => some .CSGAPIErrorC
  | .InvalidCredentialsC => some .CSGAPIErrorC
  | .NotLoggedInC => some .CSGAPIErrorC
  | .QrCodeExpiredC => some .ExceptionC
  | .RequestExceptionC => some .ExceptionC
  | .ImportErrorC => some .ExceptionC
  | .NameErrorC => some .ExceptionC
  | .IndexErrorC => some .ExceptionC
  | .ValueErrorC => some .ExceptionC

/-- Walks the base-class chain (fuel-bounded; the hierarchy has depth 3). -/
def PyClass.isSubclassOf : ℕ → PyClass → PyClass → Bool
  | 0, _, _ => false
  | fuel + 1, c, d =>
      decide (c = d) || match c.baseOf with
                        | none => false
                        | some p => PyClass.isSubclassOf fuel p d

/-- Models the clause `except CSGAPIError` (matches the class and all of its
subclasses, Python semantics of `except`). -/
def catchesCSGAPIError (e : PyExc) : Bool :=
  PyClass.isSubclassOf 10 e.classOf .CSGAPIErrorC

/-!
## Rounding

Python's builtin `round(x, 2)` rounds half to even.  The inputs relevant
here are exact decimals, which rationals represent exactly.
-/

/-- Round half to even, to an integer; models Python's builtin `round(x)`. -/
def pyRoundInt (q : ℚ) : ℤ :=
  if q - ⌊q⌋ < 1/2 then ⌊q⌋
  else if 1/2 < q - ⌊q⌋ then ⌊q⌋ + 1
  else if ⌊q⌋ % 2 = 0 then ⌊q⌋ else ⌊q⌋ + 1

/-- Models Python's `round(x, 2)`. -/
def round2 (q : ℚ) : ℚ := (pyRoundInt (q * 100) : ℚ) / 100

/-!
## petrochina_gas: tiered gas cost (sensor.py, `calculate_cost_by_ladder`)

A band is the dict `{"start": .., "end": .., "price": ..}`; the `end` key
may be `float("inf")`, modelled as `none`.
-/

/-- One entry of the gas `ladder_config` list.  The field `stop` models the
dict key named `end` (a Lean keyword); `none` models `float("inf")`. -/
structure GasBand where
  start : ℚ
  stop : Option ℚ
  price : ℚ
deriving DecidableEq

/-- The loop of `calculate_cost_by_ladder` (sensor.py lines 175-191).
Arguments mirror the Python locals `total_cost`, `remaining_volume`,
`current_stage`, `current_price`; the final list argument is the suffix of
bands still to visit.  `ladder_volume = end - start` is infinite when
`end` is `float("inf")`, so `remaining_volume <= ladder_volume` always
holds there and the loop breaks.  The stage is computed by
`ladder_config.index(ladder) + 1`, modelled with `List.indexOf` on the
full list. -/
def ladderWalkGas (ladder_config : List GasBand) :
    ℚ → ℚ → ℕ → ℚ → List GasBand → ℕ × ℚ × ℚ
  | total_cost, _remaining, stage, price, [] => (stage, price, total_cost)
  | total_cost, remaining, _stage, _price, b :: rest =>
      match b.stop with
      | none =>
          (ladder_config.indexOf b + 1, b.price, total_cost + remaining * b.price)
      | some e =>
          if remaining ≤ e - b.start then
            (ladder_config.indexOf b + 1, b.price, total_cost + remaining * b.price)
          else
            ladderWalkGas ladder_config (total_cost + (e - b.start) * b.price)
              (remaining - (e - b.start)) (ladder_config.indexOf b + 1) b.price rest

/-- petrochina_gas/sensor.py lines 143-193: returns
`(current_stage, current_price, round(total_cost, 2))`, and
`(1, 0, 0)` when the config is empty or the volume is zero. -/
def calculate_cost_by_ladder (volume : ℚ) (ladder_config : List GasBand) :
    ℕ × ℚ × ℚ :=
  if ladder_config = [] ∨ volume = 0 then (1, 0, 0)
  else
    let r := ladderWalkGas ladder_config 0 volume 0 0 ladder_config
    (r.1, r.2.1, round2 r.2.2)

/-- The concrete band table of the spec scenario:
bands 0-360 at 2.97, 360-540 at 3.56, 540-inf at 4.46. -/
def specGasTable : List GasBand :=
  [⟨0, some 360, 297/100⟩, ⟨360, some 540, 89/25⟩, ⟨540, none, 223/50⟩]

/-- The volume is at or below a band's upper bound (`True` for the
infinite bound). -/
def leStop (v : ℚ) : Option ℚ → Prop
  | none => True
  | some e => v ≤ e

/-- Capacity `end - start` of a band (unused junk value 0 for the
open-ended band, which is never fully crossed). -/
def bandCap (b : GasBand) : ℚ :=
  match b.stop with
  | none => 0
  | some e => e - b.start

/-- Well-formedness of a band list when entered at cumulative level `a`:
each band starts where the previous one ended, bounds strictly ascend,
and an open-ended band is last. -/
def contiguousFrom : ℚ → List GasBand → Prop
  | _, [] => True
  | a, b :: rest =>
      b.start = a ∧
        match b.stop with
        | none => rest = []
        | some e => a < e ∧ contiguousFrom e rest

/-- The volume does not exceed the last band's upper bound. -/
def covers (v : ℚ) : List GasBand → Prop
  | [] => True
  | [b] => leStop v b.stop
  | _ :: b :: rest => covers v (b :: rest)

/-- Spec-side notion (from the spec's cumulative-tracking sentences): the
charge for usage between cumulative readings `a` and `b`, billing the
part of `[a, b]` inside each band at that band's price. -/
def bandOverlap (a b : ℚ) (band : GasBand) : ℚ :=
  let hi : ℚ := match band.stop with | none => b | some e => min e b
  max 0 (hi - max band.start a)

/-- Spec-side incremental charge between cumulative readings `a` and `b`. -/
def chargeBetween (ladder_config : List GasBand) (a b : ℚ) : ℚ :=
  (ladder_config.map (fun band => band.price * bandOverlap a b band)).sum

/-!
## kunming_water: tier resolution (api_client.py, `calculate_ladder_stage`)
and bill composition (sensor.py, `_async_update_data`)
-/

/-- One entry of `WATER_LADDER_CONFIG` (kunming_water/const.py lines
63-67); `none` models the `float("inf")` upper bound. -/
structure WaterTier where
  max_volume : Option ℚ
  unit_price : ℚ
  stage : ℕ
deriving DecidableEq

/-- kunming_water/const.py: tiers up to 12.5 at 4.20, up to 17.5 at 5.80,
unbounded at 10.60. -/
def WATER_LADDER_CONFIG : List WaterTier :=
  [⟨some (25/2), 21/5, 1⟩, ⟨some (35/2), 29/5, 2⟩, ⟨none, 53/5, 3⟩]

/-- The dict returned by `calculate_ladder_stage`. -/
structure LadderStageResult where
  stage : ℕ
  unit_price : ℚ
  monthly_usage : ℚ
deriving DecidableEq

/-- The test `total_usage <= tier["max_volume"]` (true against the
`float("inf")` bound). -/
def leMaxVol (u : ℚ) : Option ℚ → Bool
  | none => true
  | some m => decide (u ≤ m)

/-- The loop of `calculate_ladder_stage` (api_client.py lines 421-427):
return the first tier whose `max_volume` is at least the usage. -/
def waterLadderLoop (total_usage : ℚ) : List WaterTier → Option LadderStageResult
  | [] => none
  | t :: rest =>
      if leMaxVol total_usage t.max_volume then
        some ⟨t.stage, t.unit_price, total_usage⟩
      else waterLadderLoop total_usage rest

/-- kunming_water/api_client.py lines 410-434, generalized over the tier
table the loop reads.  When no tier matches, the code falls back to
`WATER_LADDER_CONFIG[-1]`, which raises `IndexError` on an empty table. -/
def calculate_ladder_stage_over (config : List WaterTier) (total_usage : ℚ) :
    Except PyExc LadderStageResult :=
  match waterLadderLoop total_usage config with
  | some r => .ok r
  | none =>
      match config.getLast? with
      | some t => .ok ⟨t.stage, t.unit_price, total_usage⟩
      | none => .error .IndexError

/-- The source function, bound to the fixed `WATER_LADDER_CONFIG`. -/
def calculate_ladder_stage (total_usage : ℚ) : Except PyExc LadderStageResult :=
  calculate_ladder_stage_over WATER_LADDER_CONFIG total_usage

/-- The usage is within a tier's upper bound (Prop form of `leMaxVol`). -/
def tierUB (t : WaterTier) (u : ℚ) : Prop :=
  match t.max_volume with
  | none => True
  | some m => u ≤ m

/-- Spec-side lower bound of the band at an index: 0 for the first band,
else the previous band's `max_volume` (0 as junk when out of range). -/
def rangeMinAt (config : List WaterTier) : ℕ → ℚ
  | 0 => 0
  | j + 1 =>
      match config[j]? with
      | some t => match t.max_volume with | some m => m | none => 0
      | none => 0

/-- Spec-side predicate of claim C4 on the band at index `i`:
`rangeMin ≤ usage` and (`usage < rangeMax` or the band is open-ended). -/
def specBandPredC4 (config : List WaterTier) (i : ℕ) (u : ℚ) : Prop :=
  rangeMinAt config i ≤ u ∧
    match config[i]? with
    | some t => (match t.max_volume with | none => True | some m => u < m)
    | none => False

/-- The fixed rates of kunming_water/sensor.py lines 416-428. -/
def WATER_RATE : ℚ := 16/5

/-- Sewage rate, 1.00 CNY per cubic meter. -/
def SEWAGE_RATE : ℚ := 1

/-- Fixed garbage fee, 20.00 CNY per billing period. -/
def GARBAGE_FEE : ℚ := 20

/-- The four bill figures derived in `_async_update_data`. -/
structure WaterBill where
  waterFee : ℚ
  sewageFee : ℚ
  garbageFee : ℚ
  total : ℚ
deriving DecidableEq

/-- kunming_water/sensor.py lines 416-428: each line item is rounded to 2
decimals, then the total is `round(water + sewage + garbage, 2)`.  The
usage is `int(bill_list[0].get("amount", 0))`, hence an integer. -/
def computeWaterBill (latest_usage : ℤ) : WaterBill :=
  { waterFee := round2 (latest_usage * WATER_RATE)
    sewageFee := round2 (latest_usage * SEWAGE_RATE)
    garbageFee := GARBAGE_FEE
    total := round2 (round2 (latest_usage * WATER_RATE)
      + round2 (latest_usage * SEWAGE_RATE) + GARBAGE_FEE) }

/-!
## HA-grid-south csg_client: month daily cost detail, fallback estimator,
and calendar ladder info
-/

/-- Top-level names bound in csg_client/const.py (transcribed from the
source: direct assignments, the chained `AREACODE_FALLBACK =
AREACODE_GUANGDONG = ...`, the two Enum classes, and the imported name
`Enum`).  `LADDER_TIER_DEFINITIONS` is not among them, nor anywhere else
in the repository. -/
def csgConstNames : List String :=
  ["Enum", "BASE_PATH_WEB", "BASE_PATH_APP", "PARAM_KEY", "PARAM_IV",
   "LOGON_CHANNEL_ONLINE_HALL", "LOGON_CHANNEL_HANDHELD_HALL",
   "RESP_STA_SUCCESS", "RESP_STA_EMPTY_PARAMETER", "RESP_STA_SYSTEM_ERROR",
   "RESP_STA_NO_LOGIN", "RESP_STA_QR_NOT_SCANNED", "SESSION_KEY_LOGIN_TYPE",
   "LoginType", "QRCodeType", "LOGIN_TYPE_TO_QR_CODE_TYPE",
   "AREACODE_FALLBACK", "AREACODE_GUANGDONG", "AREACODE_MAPPING",
   "AREACODE_NAME_TO_CODE", "CITY_CODE_TO_PROVINCE", "CREDENTIAL_PUBKEY",
   "LOGIN_TYPE_PHONE_CODE", "LOGIN_TYPE_PHONE_PWD_CODE",
   "SEND_MSG_TYPE_VERIFICATION_CODE", "VERIFICATION_CODE_TYPE_LOGIN",
   "RESP_STA_QR_TIMEOUT", "RESP_STA_LOGIN_WRONG_CREDENTIAL",
   "QR_EXPIRY_SECONDS", "ATTR_ACCOUNT_NUMBER", "ATTR_AREA_CODE",
   "ATTR_ELE_CUSTOMER_ID", "ATTR_METERING_POINT_ID",
   "ATTR_METERING_POINT_NUMBER", "ATTR_ADDRESS", "ATTR_USER_NAME",
   "ATTR_AUTH_TOKEN", "ATTR_LOGIN_TYPE", "HEADER_X_AUTH_TOKEN",
   "HEADER_CUST_NUMBER", "JSON_KEY_STA", "JSON_KEY_MESSAGE",
   "JSON_KEY_CUST_NUMBER", "JSON_KEY_DATA", "JSON_KEY_LOGON_CHAN",
   "JSON_KEY_SMS_CODE", "JSON_KEY_CRED_TYPE", "JSON_KEY_AREA_CODE",
   "JSON_KEY_PARAM", "JSON_KEY_ACCT_ID", "JSON_KEY_ELE_CUST_ID",
   "JSON_KEY_METERING_POINT_ID", "JSON_KEY_METERING_POINT_NUMBER",
   "JSON_KEY_YEAR_MONTH", "WF_ATTR_LADDER", "WF_ATTR_LADDER_START_DATE",
   "WF_ATTR_LADDER_REMAINING_KWH", "WF_ATTR_LADDER_TARIFF", "WF_ATTR_DATE",
   "WF_ATTR_MONTH", "WF_ATTR_CHARGE", "WF_ATTR_KWH"]

/-- Models `from .const import name` inside a function body: succeeds when
the name is bound at top level of const.py, else raises `ImportError`. -/
def importFromConst (name : String) : Except PyExc Unit :=
  if csgConstNames.contains name then .ok () else .error (.ImportError name)

/-- Top-level names visible in csg_client/__init__.py: the star import of
const plus the module's own imports and definitions (transcribed from the
source).  `WF_ATTR_YEARLY_LADDER_TOTAL_KWH` is not among them, nor
assigned anywhere else in the repository. -/
def csgInitModuleNames : List String :=
  csgConstNames ++
  ["datetime", "json", "logging", "random", "time", "b64decode", "b64encode",
   "copy", "md5", "Any", "requests", "AES", "PKCS1_v1_5", "RSA", "_LOGGER",
   "CSGAPIError", "CSGHTTPError", "InvalidCredentials", "NotLoggedIn",
   "QrCodeExpired", "generate_qr_login_id", "encrypt_credential",
   "encrypt_params", "decrypt_params", "CSGElectricityAccount", "CSGClient"]

/-- One day record of the primary `api_query_day_electric_charge_by_m_point`
response (fields `date`, `charge`, `power`; absent-or-null modelled as
`none`). -/
structure DayDataRaw where
  date : String
  charge : Option ℚ
  power : Option ℚ
deriving DecidableEq

/-- One entry of the `by_day` list built by `get_month_daily_cost_detail`
(keys `WF_ATTR_DATE`, `WF_ATTR_CHARGE`, `WF_ATTR_KWH`). -/
structure DayEntry where
  date : String
  charge : Option ℚ
  kwh : Option ℚ
deriving DecidableEq

/-- The per-record body of the `for d_data in resp_data["result"]` loop
(csg_client/__init__.py lines 770-787): prefer the explicit `charge`
field; else derive `round(power * tariff, 2)` when both the day's power
and the month's `ladderEleTariff` are present; else leave the charge
null. -/
def mkDayEntry (ladderEleTariff : Option ℚ) (d : DayDataRaw) : DayEntry :=
  { date := d.date
    charge :=
      match d.charge with
      | some c => some c
      | none =>
          match d.power, ladderEleTariff with
          | some p, some t => some (round2 (p * t))
          | _, _ => none
    kwh := d.power }

/-- The full `by_day` list built by the loop. -/
def build_by_day (ladderEleTariff : Option ℚ) (records : List DayDataRaw) :
    List DayEntry :=
  records.map (mkDayEntry ladderEleTariff)

/-- The ladder dict built by `get_month_daily_cost_detail`
(keys ladder / start_date / remaining_kwh / tariff). -/
structure LadderInfo where
  ladder : Option ℤ
  start_date : Option String
  remaining_kwh : Option ℚ
  tariff : Option ℚ
deriving DecidableEq

/-- Return value of `get_month_daily_cost_detail` and of the fallback:
`(month_total_cost, month_total_kwh, ladder, by_day)`. -/
structure MonthDetail where
  month_total_cost : Option ℚ
  month_total_kwh : Option ℚ
  ladder : LadderInfo
  by_day : List DayEntry
deriving DecidableEq

/-- The primary API response as consumed by `get_month_daily_cost_detail`
(fields read from `resp_data`). -/
structure DayChargeResp where
  result : List DayDataRaw
  ladderEleTariff : Option ℚ
  totalElectricity : Option ℚ
  totalPower : Option ℚ
  ladderEle : Option ℤ
  ladderEleStartDate : Option String
  ladderEleSurplus : Option ℚ
deriving DecidableEq

/-- csg_client/__init__.py lines 770-840: the non-fallback processing of a
successful primary response.  `month_total_cost` falls back to
`round(month_total_kwh * current_tariff, 2)` when the total is null but
usage and tariff are present. -/
def processDayChargeResp (resp : DayChargeResp) : MonthDetail :=
  let by_day := build_by_day resp.ladderEleTariff resp.result
  let month_total_cost₀ := resp.totalElectricity
  let month_total_kwh := resp.totalPower
  let current_tariff := resp.ladderEleTariff
  let month_total_cost :=
    match month_total_cost₀, month_total_kwh, current_tariff with
    | none, some kwh, some t => some (round2 (kwh * t))
    | c, _, _ => c
  { month_total_cost := month_total_cost
    month_total_kwh := month_total_kwh
    ladder :=
      { ladder := resp.ladderEle
        start_date := resp.ladderEleStartDate
        remaining_kwh := resp.ladderEleSurplus
        tariff := resp.ladderEleTariff }
    by_day := by_day }

/-- Models `_get_month_detail_from_year_stats` (csg_client/__init__.py
lines 876-990).  Its first statement is
`from .const import LADDER_TIER_DEFINITIONS`; everything after that
statement is abstracted as the continuation `rest`, which runs only if
the import succeeds. -/
def get_month_detail_from_year_stats (rest : MonthDetail) :
    Except PyExc MonthDetail :=
  match importFromConst "LADDER_TIER_DEFINITIONS" with
  | .error e => .error e
  | .ok _ => .ok rest

/-- csg_client/__init__.py lines 744-840: `get_month_daily_cost_detail`
calls the primary day-by-day API inside `try`; the clause
`except CSGAPIError` routes to the fallback `_get_month_detail_from_year_stats`,
any other exception propagates.  The primary call's outcome is the
`primary` argument; `fallback_rest` is the fallback's continuation. -/
def get_month_daily_cost_detail (primary : Except PyExc DayChargeResp)
    (fallback_rest : MonthDetail) : Except PyExc MonthDetail :=
  match primary with
  | .error e =>
      if catchesCSGAPIError e then get_month_detail_from_year_stats fallback_rest
      else .error e
  | .ok resp => .ok (processDayChargeResp resp)

/-- The fixed tier-name table of `get_calendar_ladder_info`
(csg_client/__init__.py lines 1049-1054), in insertion order. -/
def ladder_name_to_tier : List (String × ℕ) :=
  [("电能替代", 1), ("居民阶梯一", 2), ("居民阶梯二", 3), ("居民阶梯三", 4)]

/-- Python's `needle in haystack` on strings. -/
def strContains (haystack needle : String) : Bool :=
  decide (needle.data <:+: haystack.data)

/-- The loop `for name, tier_num in ladder_name_to_tier.items()`: first
table entry whose name occurs in the gear string. -/
def nameMatchTier (gear : String) : List (String × ℕ) → Option ℕ
  | [] => none
  | p :: rest =>
      if strContains gear p.1 then some p.2 else nameMatchTier gear rest

/-- One entry of `ladderInfoList` as read by `get_calendar_ladder_info`
(fields with `.get` defaults 0 and 9999999 applied at use sites). -/
structure RawTier where
  ladderName : Option String
  priceValue : Option ℚ
  threshholdBottom : Option ℤ
  threshholdTop : Option ℤ
deriving DecidableEq

/-- The band test `threshold_bottom <= total_electricity <= threshold_top`
with the source's defaults. -/
def tierContains (t : RawTier) (total : ℚ) : Prop :=
  ((t.threshholdBottom.getD 0 : ℤ) : ℚ) ≤ total ∧
    total ≤ ((t.threshholdTop.getD 9999999 : ℤ) : ℚ)

instance (t : RawTier) (total : ℚ) : Decidable (tierContains t total) := by
  unfold tierContains; infer_instance

/-- The loop `for i, tier_info in enumerate(ladderInfoList, 1)`: first
1-based index whose band contains the cumulative usage. -/
def bandMatchTier (total : ℚ) : ℕ → List RawTier → Option ℕ
  | _, [] => none
  | i, t :: rest =>
      if tierContains t total then some i else bandMatchTier total (i + 1) rest

/-- The fields of the annual tier info response read by
`get_calendar_ladder_info`; `none` models an absent key (the `.get`
defaults are applied at the use sites). -/
structure CalendarResp where
  currentGear : Option String
  totalElectricityOfYear : Option ℚ
  ladderInfoList : Option (List RawTier)
deriving DecidableEq

/-- The tier-resolution logic of `get_calendar_ladder_info`
(csg_client/__init__.py lines 1044-1070): substring-match the gear name
against the four-name table; if none matches, locate the band of
`ladderInfoList` containing `totalElectricityOfYear`; else stay `None`. -/
def resolveCalendarLadder (resp : CalendarResp) : Option ℕ :=
  let current_gear_name := resp.currentGear.getD ""
  match nameMatchTier current_gear_name ladder_name_to_tier with
  | some t => some t
  | none =>
      bandMatchTier (resp.totalElectricityOfYear.getD 0) 1
        (resp.ladderInfoList.getD [])

/-- The ladder info dict that lines 1083-1095 try to build (only the
resolution-relevant field is kept). -/
structure CalendarLadderInfo where
  ladder : Option ℕ
deriving DecidableEq

/-- csg_client/__init__.py lines 1016-1105: after resolving the tier, the
function builds the `ladder_info` dict whose fourth entry uses the global
name `WF_ATTR_YEARLY_LADDER_TOTAL_KWH` as a key.  Evaluating that dict
literal looks the name up in the module namespace; the name is bound
nowhere, so the construction raises `NameError` on every path. -/
def get_calendar_ladder_info (resp : CalendarResp) :
    Except PyExc CalendarLadderInfo :=
  let current_ladder := resolveCalendarLadder resp
  if csgInitModuleNames.contains "WF_ATTR_YEARLY_LADDER_TOTAL_KWH" then
    .ok { ladder := current_ladder }
  else .error (.NameError "WF_ATTR_YEARLY_LADDER_TOTAL_KWH")

instance (t : WaterTier) (u : ℚ) : Decidable (tierUB t u) :=
  match h : t.max_volume with
  | none => .isTrue (by simp [tierUB, h])
  | some m => decidable_of_iff (u ≤ m) (by simp [tierUB, h])

instance (config : List WaterTier) (i : ℕ) (u : ℚ) :
    Decidable (specBandPredC4 config i u) :=
  match h : config[i]? with
  | none => .isFalse (by simp [specBandPredC4, h])
  | some t =>
      match hm : t.max_volume with
      | none => decidable_of_iff (rangeMinAt config i ≤ u)
          (by simp [specBandPredC4, h, hm])
      | some m => decidable_of_iff (rangeMinAt config i ≤ u ∧ u < m)
          (by simp [specBandPredC4, h, hm])

/-- Strict order on tier upper bounds, the infinite bound on top. -/
def maxVolLt : Option ℚ → Option ℚ → Prop
  | some x, some y => x < y
  | some _, none => True
  | none, _ => False

instance : ∀ a b : Option ℚ, Decidable (maxVolLt a b)
  | some x, some y => decidable_of_iff (x < y) (by simp [maxVolLt])
  | some _, none => .isTrue trivial
  | none, _ => .isFalse (fun h => h)

/-- The tier table has strictly ascending upper bounds. -/
def tiersAscending (config : List WaterTier) : Prop :=
  List.Chain' (fun a b => maxVolLt a.max_volume b.max_volume) config

instance (config : List WaterTier) : Decidable (tiersAscending config) := by
  unfold tiersAscending; infer_instance

/-- A month detail value with every field empty, used as a concrete
continuation when exercising the dispatch. -/
def mdEmpty : MonthDetail :=
  { month_total_cost := none
    month_total_kwh := none
    ladder := { ladder := none, start_date := none, remaining_kwh := none, tariff := none }
    by_day := [] }

/-!
## General lemmas
-/

theorem pyRoundInt_intCast (n : ℤ) : pyRoundInt (n : ℚ) = n := by
  simp [pyRoundInt]

/-- Rounding to two decimals is the identity on exact centi-values. -/
theorem round2_centi (n : ℤ) : round2 ((n : ℚ) / 100) = (n : ℚ) / 100 := by
  have h : ((n : ℚ) / 100) * 100 = (n : ℚ) := by
    field_simp
  rw [round2, h, pyRoundInt_intCast]

/-!
## Claims
-/

/-- C9: for every band list and volume, if the volume equals 0 or the band
list is empty, `calculate_cost_by_ladder` returns exactly
`(stage = 1, unit_price = 0, cost = 0)` and does not raise an error. -/
theorem C9_zero_volume_or_empty_config (volume : ℚ) (ladder_config : List GasBand)
    (h : volume = 0 ∨ ladder_config = []) :
    calculate_cost_by_ladder volume ladder_config = (1, 0, 0) := by
  rcases h with h | h <;> simp [calculate_cost_by_ladder, h]

/-- Witness for C9 at volume 0 against the concrete spec band table. -/
theorem C9_zero_volume_or_empty_config_witness :
    calculate_cost_by_ladder 0 specGasTable = (1, 0, 0) :=
  C9_zero_volume_or_empty_config 0 specGasTable (Or.inl rfl)

/-- C3: the name `LADDER_TIER_DEFINITIONS` imported at the top of
`_get_month_detail_from_year_stats` is defined nowhere in
csg_client/const.py, so every invocation of the fallback raises
`ImportError` before producing any result, whatever the rest of the body
would have computed. -/
theorem C3_fallback_always_raises_ImportError :
    csgConstNames.contains "LADDER_TIER_DEFINITIONS" = false ∧
    ∀ rest : MonthDetail,
      get_month_detail_from_year_stats rest =
        .error (.ImportError "LADDER_TIER_DEFINITIONS") := by
  have h : csgConstNames.contains "LADDER_TIER_DEFINITIONS" = false := by decide
  have h2 : "LADDER_TIER_DEFINITIONS" ∉ csgConstNames := by decide
  exact ⟨h, fun rest => by
    simp [get_month_detail_from_year_stats, importFromConst, h2]⟩

/-- C2 counterexample: an HTTP-level failure (`CSGHTTPError`, the model of
a non-200 status raised by `_make_request`) does not propagate out of
`get_month_daily_cost_detail`; it is caught by `except CSGAPIError`
(being a subclass) and the fallback runs instead, here surfacing the
fallback's own `ImportError`. -/
theorem C2_counterexample_http_error_caught :
    get_month_daily_cost_detail (.error (.CSGHTTPError 500)) mdEmpty =
      .error (.ImportError "LADDER_TIER_DEFINITIONS") ∧
    get_month_daily_cost_detail (.error (.CSGHTTPError 500)) mdEmpty ≠
      .error (.CSGHTTPError 500) := by
  have h2 : "LADDER_TIER_DEFINITIONS" ∉ csgConstNames := by decide
  have hcat : catchesCSGAPIError (.CSGHTTPError 500) = true := by decide
  constructor <;>
    simp [get_month_daily_cost_detail, hcat, get_month_detail_from_year_stats,
      importFromConst, h2]

/-- C2 amended: the fallback is invoked exactly when the primary call
raises an exception in the `CSGAPIError` hierarchy — which includes the
HTTP-level subclass `CSGHTTPError` — and only exceptions outside that
hierarchy (e.g. transport exceptions from `requests`) propagate
unchanged. -/
theorem C2_fallback_dispatch (e : PyExc) (rest : MonthDetail) :
    (catchesCSGAPIError e = true →
      get_month_daily_cost_detail (.error e) rest =
        .error (.ImportError "LADDER_TIER_DEFINITIONS")) ∧
    (catchesCSGAPIError e = false →
      get_month_daily_cost_detail (.error e) rest = .error e) ∧
    catchesCSGAPIError (.CSGHTTPError 500) = true ∧
    catchesCSGAPIError (.RequestException "connection reset") = false := by
  have hc : "LADDER_TIER_DEFINITIONS" ∉ csgConstNames := by decide
  refine ⟨?_, ?_, by decide, by decide⟩
  · intro h
    simp [get_month_daily_cost_detail, h, get_month_detail_from_year_stats,
      importFromConst, hc]
  · intro h
    simp [get_month_daily_cost_detail, h]

/-- Witness for C2: instantiation at a provider-level error (caught, the
fallback runs) and at a transport-level error (propagates). -/
theorem C2_fallback_dispatch_witness :
    get_month_daily_cost_detail (.error (.CSGAPIError "02" none)) mdEmpty =
      .error (.ImportError "LADDER_TIER_DEFINITIONS") ∧
    get_month_daily_cost_detail (.error (.RequestException "timeout")) mdEmpty =
      .error (.RequestException "timeout") :=
  ⟨(C2_fallback_dispatch (.CSGAPIError "02" none) mdEmpty).1 (by decide),
   (C2_fallback_dispatch (.RequestException "timeout") mdEmpty).2.1 (by decide)⟩

/-- C10 counterexample: at the negative usage -1 the water resolver
returns the first tier's result instead of signalling any error (no
`InvalidUsage` exists anywhere in the code). -/
theorem C10_counterexample_negative_usage :
    calculate_ladder_stage (-1) = .ok ⟨1, 21/5, -1⟩ := by
  norm_num [calculate_ladder_stage, calculate_ladder_stage_over,
    waterLadderLoop, WATER_LADDER_CONFIG, leMaxVol]

/-- C10 amended: `calculate_ladder_stage` never raises for any usage,
non-negative or not; a negative usage falls into the first tier (4.20,
stage 1) instead of signalling an `InvalidUsage` error. -/
theorem C10_never_raises (u : ℚ) :
    (∃ r, calculate_ladder_stage u = .ok r) ∧
    (u < 0 → calculate_ladder_stage u = .ok ⟨1, 21/5, u⟩) := by
  constructor
  · by_cases h1 : u ≤ 25/2
    · exact ⟨⟨1, 21/5, u⟩, by simp [calculate_ladder_stage, calculate_ladder_stage_over,
        waterLadderLoop, WATER_LADDER_CONFIG, leMaxVol, h1]⟩
    · by_cases h2 : u ≤ 35/2
      · exact ⟨⟨2, 29/5, u⟩, by simp [calculate_ladder_stage, calculate_ladder_stage_over,
          waterLadderLoop, WATER_LADDER_CONFIG, leMaxVol, h1, h2]⟩
      · exact ⟨⟨3, 53/5, u⟩, by simp [calculate_ladder_stage, calculate_ladder_stage_over,
          waterLadderLoop, WATER_LADDER_CONFIG, leMaxVol, h1, h2]⟩
  · intro h
    have h1 : u ≤ 25/2 := le_trans h.le (by norm_num)
    simp [calculate_ladder_stage, calculate_ladder_stage_over,
      waterLadderLoop, WATER_LADDER_CONFIG, leMaxVol, h1]

/-- Witness for C10 at usage -2. -/
theorem C10_never_raises_witness :
    calculate_ladder_stage (-2) = .ok ⟨1, 21/5, -2⟩ :=
  (C10_never_raises (-2)).2 (by norm_num)

/-- C6: for every positive billed water usage the total bill equals
`round(u*3.20, 2) + round(u*1.00, 2) + 20.00`, each line item rounded
separately before summing (the outer rounding the code applies to the sum
is the identity there, the parts being exact centi-values). -/
theorem C6_bill_rounding (u : ℤ) (hu : 0 < u) :
    (computeWaterBill u).total =
      round2 ((u : ℚ) * WATER_RATE) + round2 ((u : ℚ) * SEWAGE_RATE) + GARBAGE_FEE ∧
    (computeWaterBill u).total =
      (computeWaterBill u).waterFee + (computeWaterBill u).sewageFee +
        (computeWaterBill u).garbageFee := by
  have hw : round2 ((u : ℚ) * WATER_RATE) = (u : ℚ) * WATER_RATE := by
    have h : (u : ℚ) * WATER_RATE = ((320 * u : ℤ) : ℚ) / 100 := by
      push_cast [WATER_RATE]; ring
    rw [h, round2_centi]
  have hs : round2 ((u : ℚ) * SEWAGE_RATE) = (u : ℚ) * SEWAGE_RATE := by
    have h : (u : ℚ) * SEWAGE_RATE = ((100 * u : ℤ) : ℚ) / 100 := by
      push_cast [SEWAGE_RATE]; ring
    rw [h, round2_centi]
  have ht : round2 ((u : ℚ) * WATER_RATE + (u : ℚ) * SEWAGE_RATE + GARBAGE_FEE)
      = (u : ℚ) * WATER_RATE + (u : ℚ) * SEWAGE_RATE + GARBAGE_FEE := by
    have h : (u : ℚ) * WATER_RATE + (u : ℚ) * SEWAGE_RATE + GARBAGE_FEE
        = ((420 * u + 2000 : ℤ) : ℚ) / 100 := by
      push_cast [WATER_RATE, SEWAGE_RATE, GARBAGE_FEE]; ring
    rw [h, round2_centi]
  constructor
  · simp only [computeWaterBill]
    rw [hw, hs, ht]
  · simp only [computeWaterBill]
    rw [hw, hs, ht]

/-- Witness for C6 at the spec scenario: usage 15 gives water fee 48.00,
sewage fee 15.00, garbage fee 20.00 and total 83.00. -/
theorem C6_bill_rounding_witness :
    ((computeWaterBill 15).total =
        round2 (((15 : ℤ) : ℚ) * WATER_RATE) + round2 (((15 : ℤ) : ℚ) * SEWAGE_RATE)
          + GARBAGE_FEE ∧
      (computeWaterBill 15).total =
        (computeWaterBill 15).waterFee + (computeWaterBill 15).sewageFee +
          (computeWaterBill 15).garbageFee) ∧
    computeWaterBill 15 = ⟨48, 15, 20, 83⟩ :=
  ⟨C6_bill_rounding 15 (by norm_num),
   by norm_num [computeWaterBill, WATER_RATE, SEWAGE_RATE, GARBAGE_FEE,
     round2, pyRoundInt]⟩

/-- C7: in the non-fallback path, a day record's reported charge is the
explicit `charge` field when present; else `round(power * tariff, 2)`
when both the day's power and the month's ladder tariff are present; else
null, never zero. -/
theorem C7_day_charge_derivation (ladderEleTariff : Option ℚ)
    (records : List DayDataRaw) (i : ℕ) (d : DayDataRaw)
    (hd : records[i]? = some d) :
    ∃ e : DayEntry, (build_by_day ladderEleTariff records)[i]? = some e ∧
      e.date = d.date ∧ e.kwh = d.power ∧
      (∀ c, d.charge = some c → e.charge = some c) ∧
      (d.charge = none → ∀ p t, d.power = some p → ladderEleTariff = some t →
        e.charge = some (round2 (p * t))) ∧
      (d.charge = none → (d.power = none ∨ ladderEleTariff = none) →
        e.charge = none) := by
  refine ⟨mkDayEntry ladderEleTariff d, ?_, rfl, rfl, ?_, ?_, ?_⟩
  · simp [build_by_day, List.getElem?_map, hd]
  · intro c hcc
    simp [mkDayEntry, hcc]
  · intro hnone p t hp ht
    simp [mkDayEntry, hnone, hp, ht]
  · intro hnone hmiss
    rcases hmiss with hp | ht
    · simp [mkDayEntry, hnone, hp]
    · rcases hp : d.power with _ | p <;> simp [mkDayEntry, hnone, hp, ht]

/-- Bridge between the Bool test of the water loop and its Prop form. -/
theorem tierUB_iff_leMaxVol (t : WaterTier) (u : ℚ) :
    tierUB t u ↔ leMaxVol u t.max_volume = true := by
  rcases h : t.max_volume with _ | m <;> simp [tierUB, leMaxVol, h]

/-- The water loop returns the first tier whose upper bound admits the
usage; an open-ended last tier guarantees a match. -/
theorem waterLadderLoop_first_match (u : ℚ) :
    ∀ config : List WaterTier,
      (∃ t, config.getLast? = some t ∧ t.max_volume = none) →
      ∃ k, ∃ hk : k < config.length,
        waterLadderLoop u config =
          some ⟨(config.get ⟨k, hk⟩).stage, (config.get ⟨k, hk⟩).unit_price, u⟩ ∧
        tierUB (config.get ⟨k, hk⟩) u ∧
        ∀ j, ∀ hj : j < k, ¬ tierUB (config.get ⟨j, hj.trans hk⟩) u := by
  intro config
  induction config with
  | nil => rintro ⟨t, ht, _⟩; simp at ht
  | cons t rest ih =>
    rintro ⟨tl, htl, hnone⟩
    by_cases hm : leMaxVol u t.max_volume = true
    · refine ⟨0, by simp, ?_, ?_, ?_⟩
      · simp [waterLadderLoop, hm]
      · exact (tierUB_iff_leMaxVol t u).2 hm
      · intro j hj
        exact absurd hj (Nat.not_lt_zero j)
    · rcases hmv : t.max_volume with _ | m
      · exact absurd (by simp [leMaxVol, hmv]) hm
      rcases rest with _ | ⟨r, rs⟩
      · have : tl = t := by simpa using htl.symm
        rw [this] at hnone
        rw [hnone] at hmv
        exact absurd hmv (by simp)
      · have htl2 : (r :: rs).getLast? = some tl := by
          simpa [List.getLast?_cons_cons] using htl
        obtain ⟨k, hk, heq, hub, hmin⟩ := ih ⟨tl, htl2, hnone⟩
        refine ⟨k + 1, by simpa using Nat.succ_lt_succ hk, ?_, ?_, ?_⟩
        · simpa [waterLadderLoop, hm] using heq
        · simpa using hub
        · intro j hj
          match j, hj with
          | 0, _ =>
            simpa using fun hc => hm ((tierUB_iff_leMaxVol t u).1 hc)
          | j2 + 1, hj =>
            simpa using hmin j2 (by omega)

/-- C4 counterexample: at the interior boundary usage 12.5 the resolver
returns the first band (stage 1, 4.20) — the band whose `max_volume`
equals the usage — not the band whose lower bound equals it; the claim's
predicate `rangeMin ≤ usage < rangeMax` fails at the returned band and
holds at the next one. -/
theorem C4_counterexample_boundary :
    calculate_ladder_stage (25/2) = .ok ⟨1, 21/5, 25/2⟩ ∧
    ¬ specBandPredC4 WATER_LADDER_CONFIG 0 (25/2) ∧
    specBandPredC4 WATER_LADDER_CONFIG 1 (25/2) := by
  refine ⟨?_, ?_, ?_⟩
  · norm_num [calculate_ladder_stage, calculate_ladder_stage_over,
      waterLadderLoop, WATER_LADDER_CONFIG, leMaxVol]
  · norm_num [specBandPredC4, rangeMinAt, WATER_LADDER_CONFIG]
  · norm_num [specBandPredC4, rangeMinAt, WATER_LADDER_CONFIG]

/-- C4 amended: for non-negative usage and an ascending tier table with an
open-ended last band, the resolver returns exactly one band, the first
one whose upper bound is at least the usage: the returned band `k`
satisfies `usage ≤ max_volume k` (trivially for the open band), every
earlier band's bound is exceeded, and any index with this property equals
`k` — so at an interior boundary the usage resolves to the lower band,
the one whose `max_volume` equals it. -/
theorem C4_resolver_unique_band (config : List WaterTier) (u : ℚ)
    (h0 : 0 ≤ u) (hasc : tiersAscending config)
    (hlast : ∃ t, config.getLast? = some t ∧ t.max_volume = none) :
    ∃ k, ∃ hk : k < config.length,
      calculate_ladder_stage_over config u =
        .ok ⟨(config.get ⟨k, hk⟩).stage, (config.get ⟨k, hk⟩).unit_price, u⟩ ∧
      tierUB (config.get ⟨k, hk⟩) u ∧
      (∀ j, ∀ hj : j < k, ¬ tierUB (config.get ⟨j, hj.trans hk⟩) u) ∧
      ∀ k2, ∀ hk2 : k2 < config.length,
        tierUB (config.get ⟨k2, hk2⟩) u →
        (∀ j, ∀ hj : j < k2, ¬ tierUB (config.get ⟨j, hj.trans hk2⟩) u) →
        k2 = k := by
  obtain ⟨k, hk, heq, hub, hmin⟩ := waterLadderLoop_first_match u config hlast
  refine ⟨k, hk, ?_, hub, hmin, ?_⟩
  · simp [calculate_ladder_stage_over, heq]
  · intro k2 hk2 hub2 hmin2
    rcases Nat.lt_trichotomy k2 k with h | h | h
    · exact absurd hub2 (hmin k2 h)
    · exact h
    · exact absurd hub (hmin2 k h)

/-- Witness for C4 at usage 15 against the fixed water table: the second
band (stage 2, 5.80) is the unique match. -/
theorem C4_resolver_unique_band_witness :
    ∃ k, ∃ hk : k < WATER_LADDER_CONFIG.length,
      calculate_ladder_stage_over WATER_LADDER_CONFIG 15 =
        .ok ⟨(WATER_LADDER_CONFIG.get ⟨k, hk⟩).stage,
             (WATER_LADDER_CONFIG.get ⟨k, hk⟩).unit_price, 15⟩ ∧
      tierUB (WATER_LADDER_CONFIG.get ⟨k, hk⟩) 15 ∧
      (∀ j, ∀ hj : j < k, ¬ tierUB (WATER_LADDER_CONFIG.get ⟨j, hj.trans hk⟩) 15) ∧
      ∀ k2, ∀ hk2 : k2 < WATER_LADDER_CONFIG.length,
        tierUB (WATER_LADDER_CONFIG.get ⟨k2, hk2⟩) 15 →
        (∀ j, ∀ hj : j < k2, ¬ tierUB (WATER_LADDER_CONFIG.get ⟨j, hj.trans hk2⟩) 15) →
        k2 = k :=
  C4_resolver_unique_band WATER_LADDER_CONFIG 15 (by norm_num)
    (by norm_num [tiersAscending, WATER_LADDER_CONFIG, maxVolLt,
      List.chain'_cons, List.chain'_singleton])
    ⟨⟨none, 53/5, 3⟩, rfl, rfl⟩

/-- Witness for C7 on a record with no explicit charge, power 3 and
tariff 1/2. -/
theorem C7_day_charge_derivation_witness :
    ∃ e : DayEntry,
      (build_by_day (some (1/2)) [⟨"2024-01-01", none, some 3⟩])[0]? = some e ∧
      e.date = (⟨"2024-01-01", none, some 3⟩ : DayDataRaw).date ∧
      e.kwh = (⟨"2024-01-01", none, some 3⟩ : DayDataRaw).power ∧
      (∀ c, (⟨"2024-01-01", none, some 3⟩ : DayDataRaw).charge = some c →
        e.charge = some c) ∧
      ((⟨"2024-01-01", none, some 3⟩ : DayDataRaw).charge = none →
        ∀ p t, (⟨"2024-01-01", none, some 3⟩ : DayDataRaw).power = some p →
          (some (1/2) : Option ℚ) = some t → e.charge = some (round2 (p * t))) ∧
      ((⟨"2024-01-01", none, some 3⟩ : DayDataRaw).charge = none →
        ((⟨"2024-01-01", none, some 3⟩ : DayDataRaw).power = none ∨
          (some (1/2) : Option ℚ) = none) → e.charge = none) :=
  C7_day_charge_derivation (some (1/2)) [⟨"2024-01-01", none, some 3⟩] 0
    ⟨"2024-01-01", none, some 3⟩ rfl

/-- The name loop misses every table entry. -/
theorem nameMatchTier_miss (gear : String) :
    ∀ table : List (String × ℕ), (∀ p ∈ table, strContains gear p.1 = false) →
      nameMatchTier gear table = none := by
  intro table
  induction table with
  | nil => intro _; rfl
  | cons p rest ih =>
    intro h
    have hp := h p (by simp)
    simp only [nameMatchTier, hp, Bool.false_eq_true, if_false]
    exact ih (fun q hq => h q (by simp [hq]))

/-- The name loop returns the first matching table entry. -/
theorem nameMatchTier_hit (gear : String) :
    ∀ (table : List (String × ℕ)) (i : ℕ) (p : String × ℕ),
      table[i]? = some p → strContains gear p.1 = true →
      (∀ j, ∀ q : String × ℕ, j < i → table[j]? = some q →
        strContains gear q.1 = false) →
      nameMatchTier gear table = some p.2 := by
  intro table
  induction table with
  | nil => intro i p hp _ _; simp at hp
  | cons hd rest ih =>
    intro i p hp hhit hmiss
    cases i with
    | zero =>
      have : hd = p := by simpa using hp
      subst this
      simp [nameMatchTier, hhit]
    | succ i2 =>
      have h0 := hmiss 0 hd (Nat.succ_pos i2) (by simp)
      simp only [nameMatchTier, h0, Bool.false_eq_true, if_false]
      exact ih i2 p (by simpa using hp) hhit
        (fun j q hj hq => hmiss (j + 1) q (by omega) (by simpa using hq))

/-- The band loop misses every band. -/
theorem bandMatchTier_miss (total : ℚ) :
    ∀ (lst : List RawTier) (s : ℕ), (∀ t ∈ lst, ¬ tierContains t total) →
      bandMatchTier total s lst = none := by
  intro lst
  induction lst with
  | nil => intro _ _; rfl
  | cons t rest ih =>
    intro s h
    have hp := h t (by simp)
    simp only [bandMatchTier, hp, if_false]
    exact ih (s + 1) (fun q hq => h q (by simp [hq]))

/-- The band loop returns the 1-based index of the first containing band. -/
theorem bandMatchTier_hit (total : ℚ) :
    ∀ (lst : List RawTier) (s i : ℕ) (t : RawTier),
      lst[i]? = some t → tierContains t total →
      (∀ j, ∀ q : RawTier, j < i → lst[j]? = some q → ¬ tierContains q total) →
      bandMatchTier total s lst = some (s + i) := by
  intro lst
  induction lst with
  | nil => intro s i t ht _ _; simp at ht
  | cons hd rest ih =>
    intro s i t ht hc hmiss
    cases i with
    | zero =>
      have : hd = t := by simpa using ht
      subst this
      simp [bandMatchTier, hc]
    | succ i2 =>
      have h0 := hmiss 0 hd (Nat.succ_pos i2) (by simp)
      simp only [bandMatchTier, h0, if_false]
      have := ih (s + 1) i2 t (by simpa using ht) hc
        (fun j q hj hq => hmiss (j + 1) q (by omega) (by simpa using hq))
      rw [this]
      congr 1
      omega

/-- C5 counterexample: when neither the name table nor the band list
resolves the tier, no `UnresolvedTier` error is signalled (that class
does not exist in the code): the internally computed tier is simply
`None`, and what the caller actually observes — on failing and matching
inputs alike — is the unconditional `NameError` raised while the return
dict is built, so the error carries no tier-resolution meaning. -/
theorem C5_counterexample_no_unresolved_tier_signal :
    resolveCalendarLadder ⟨some "", some 100, some []⟩ = none ∧
    get_calendar_ladder_info ⟨some "", some 100, some []⟩ =
      .error (.NameError "WF_ATTR_YEARLY_LADDER_TOTAL_KWH") ∧
    resolveCalendarLadder ⟨some "【居民阶梯一】", some 100, some []⟩ = some 2 ∧
    get_calendar_ladder_info ⟨some "【居民阶梯一】", some 100, some []⟩ =
      get_calendar_ladder_info ⟨some "", some 100, some []⟩ := by
  have h : "WF_ATTR_YEARLY_LADDER_TOTAL_KWH" ∉ csgInitModuleNames := by decide
  refine ⟨by decide, ?_, by decide, ?_⟩
  · simp [get_calendar_ladder_info, h]
  · simp [get_calendar_ladder_info, h]

/-- C5 amended: the tier index is resolved by substring-matching the
provider's tier name against the fixed four-name table, else by locating
the first band of `ladderInfoList` whose bounds contain the cumulative
yearly usage; when both lookups fail the computed tier is `None` — no
`UnresolvedTier` is signalled.  Independently of the lookups, the
function raises `NameError` while assembling its return dict, because
`WF_ATTR_YEARLY_LADDER_TOTAL_KWH` is defined nowhere in the module. -/
theorem C5_tier_resolution (resp : CalendarResp) :
    get_calendar_ladder_info resp =
      .error (.NameError "WF_ATTR_YEARLY_LADDER_TOTAL_KWH") ∧
    (∀ i : ℕ, ∀ p : String × ℕ, ladder_name_to_tier[i]? = some p →
      strContains (resp.currentGear.getD "") p.1 = true →
      (∀ j : ℕ, ∀ q : String × ℕ, j < i → ladder_name_to_tier[j]? = some q →
        strContains (resp.currentGear.getD "") q.1 = false) →
      resolveCalendarLadder resp = some p.2) ∧
    ((∀ p ∈ ladder_name_to_tier, strContains (resp.currentGear.getD "") p.1 = false) →
      (∀ i : ℕ, ∀ t : RawTier, (resp.ladderInfoList.getD [])[i]? = some t →
        tierContains t (resp.totalElectricityOfYear.getD 0) →
        (∀ j : ℕ, ∀ q : RawTier, j < i → (resp.ladderInfoList.getD [])[j]? = some q →
          ¬ tierContains q (resp.totalElectricityOfYear.getD 0)) →
        resolveCalendarLadder resp = some (1 + i)) ∧
      ((∀ t ∈ resp.ladderInfoList.getD [],
          ¬ tierContains t (resp.totalElectricityOfYear.getD 0)) →
        resolveCalendarLadder resp = none)) := by
  refine ⟨?_, ?_, ?_⟩
  · have h : "WF_ATTR_YEARLY_LADDER_TOTAL_KWH" ∉ csgInitModuleNames := by decide
    simp [get_calendar_ladder_info, h]
  · intro i p hp hhit hmiss
    have h := nameMatchTier_hit _ ladder_name_to_tier i p hp hhit hmiss
    simp [resolveCalendarLadder, h]
  · intro hnm
    have h := nameMatchTier_miss _ ladder_name_to_tier hnm
    constructor
    · intro i t ht hc hmin
      have hb := bandMatchTier_hit _ _ 1 i t ht hc hmin
      simp [resolveCalendarLadder, h, hb]
    · intro hall
      have hb := bandMatchTier_miss _ _ 1 hall
      simp [resolveCalendarLadder, h, hb]

/-- Witness for C5: a gear name matching the first table entry resolves
to tier 1; with no name match, a band containing the usage resolves by
index; and the assembled return always degenerates to the `NameError`. -/
theorem C5_tier_resolution_witness :
    resolveCalendarLadder ⟨some "【电能替代】", some 100, some []⟩ = some 1 ∧
    resolveCalendarLadder
      ⟨some "unknown", some 100, some [⟨none, none, some 0, some 2000⟩]⟩ =
        some 1 ∧
    get_calendar_ladder_info ⟨some "【电能替代】", some 100, some []⟩ =
      .error (.NameError "WF_ATTR_YEARLY_LADDER_TOTAL_KWH") :=
  ⟨(C5_tier_resolution ⟨some "【电能替代】", some 100, some []⟩).2.1 0
      ("电能替代", 1) rfl (by decide)
      (fun j q hj _ => absurd hj (Nat.not_lt_zero j)),
   (((C5_tier_resolution
        ⟨some "unknown", some 100, some [⟨none, none, some 0, some 2000⟩]⟩).2.2
      (by decide)).1 0 ⟨none, none, some 0, some 2000⟩ rfl
      (by constructor <;> norm_num)
      (fun j q hj _ => absurd hj (Nat.not_lt_zero j))),
   (C5_tier_resolution ⟨some "【电能替代】", some 100, some []⟩).1⟩

/-!
## Gas ladder walk: support lemmas
-/

theorem chargeBetween_nil (a b : ℚ) : chargeBetween [] a b = 0 := rfl

theorem chargeBetween_cons (x : GasBand) (l : List GasBand) (a b : ℚ) :
    chargeBetween (x :: l) a b =
      x.price * bandOverlap a b x + chargeBetween l a b := by
  simp [chargeBetween]

/-- Every band of a contiguous chain starts at or after the entry level. -/
theorem contiguous_start_ge :
    ∀ (bands : List GasBand) (a : ℚ), contiguousFrom a bands →
      ∀ b ∈ bands, a ≤ b.start := by
  intro bands
  induction bands with
  | nil => intro a _ b hb; simp at hb
  | cons x rest ih =>
    intro a hc b hb
    obtain ⟨hstart, hrest⟩ := hc
    rcases List.mem_cons.1 hb with hb | hb
    · subst hb; exact le_of_eq hstart.symm
    · rcases hstop : x.stop with _ | e
      · rw [hstop] at hrest
        rw [hrest] at hb
        simp at hb
      · rw [hstop] at hrest
        obtain ⟨hae, hcont⟩ := hrest
        exact le_trans hae.le (ih e hcont b hb)

/-- A contiguous chain has pairwise distinct bands. -/
theorem contiguous_nodup :
    ∀ (bands : List GasBand) (a : ℚ), contiguousFrom a bands → bands.Nodup := by
  intro bands
  induction bands with
  | nil => intro a _; simp
  | cons x rest ih =>
    intro a hc
    obtain ⟨hstart, hrest⟩ := hc
    rcases hstop : x.stop with _ | e
    · rw [hstop] at hrest
      rw [hrest]
      simp
    · rw [hstop] at hrest
      obtain ⟨hae, hcont⟩ := hrest
      refine List.nodup_cons.2 ⟨?_, ih e hcont⟩
      intro hmem
      have := contiguous_start_ge rest e hcont x hmem
      rw [hstart] at this
      exact absurd (lt_of_lt_of_le hae this) (lt_irrefl a)

/-- Overlap of `[a, v]` with a fully crossed band `[a, e]`, `e ≤ v`. -/
theorem bandOverlap_full (x : GasBand) (a v e : ℚ) (hstart : x.start = a)
    (hstop : x.stop = some e) (hae : a < e) (hev : e ≤ v) :
    bandOverlap a v x = e - a := by
  simp only [bandOverlap, hstop, hstart]
  rw [min_eq_left hev, max_self, max_eq_right (by linarith)]

/-- Overlap of `[a, v]` with the band the volume falls in. -/
theorem bandOverlap_inside (x : GasBand) (a v : ℚ) (hstart : x.start = a)
    (hin : leStop v x.stop) (hav : a ≤ v) :
    bandOverlap a v x = v - a := by
  rcases hstop : x.stop with _ | e
  · simp only [bandOverlap, hstop, hstart]
    rw [max_self, max_eq_right (by linarith)]
  · rw [hstop] at hin
    simp only [leStop] at hin
    simp only [bandOverlap, hstop, hstart]
    rw [min_eq_right hin, max_self, max_eq_right (by linarith)]

/-- A band entirely above the queried range contributes nothing. -/
theorem bandOverlap_zero (x : GasBand) (a v : ℚ) (hv : v ≤ x.start)
    (ha : a ≤ x.start) : bandOverlap a v x = 0 := by
  rcases hstop : x.stop with _ | e
  · simp only [bandOverlap, hstop]
    rw [max_eq_left ha, max_eq_left (by linarith)]
  · simp only [bandOverlap, hstop]
    rw [max_eq_left ha, max_eq_left]
    have := min_le_right e v
    linarith

/-- Raising the lower cut from `a` to `e` changes nothing for bands that
start at or above `e`. -/
theorem chargeBetween_shift (l : List GasBand) (a e v : ℚ)
    (hstarts : ∀ b ∈ l, e ≤ b.start) (hae : a ≤ e) :
    chargeBetween l a v = chargeBetween l e v := by
  unfold chargeBetween
  congr 1
  apply List.map_congr_left
  intro b hb
  have hs := hstarts b hb
  have hmax : max b.start a = max b.start e := by
    rw [max_eq_left (le_trans hae hs), max_eq_left hs]
  simp only [bandOverlap, hmax]

/-- Bands entirely above the queried range contribute nothing in total. -/
theorem chargeBetween_zero (l : List GasBand) (a v : ℚ)
    (h : ∀ b ∈ l, v ≤ b.start ∧ a ≤ b.start) :
    chargeBetween l a v = 0 := by
  unfold chargeBetween
  apply List.sum_eq_zero
  intro x hx
  simp only [List.mem_map] at hx
  obtain ⟨b, hb, hbx⟩ := hx
  rw [← hbx, bandOverlap_zero b a v (h b hb).1 (h b hb).2, mul_zero]

/-- The empty range is never charged. -/
theorem chargeBetween_self (l : List GasBand) (a : ℚ) :
    chargeBetween l a a = 0 := by
  unfold chargeBetween
  apply List.sum_eq_zero
  intro x hx
  simp only [List.mem_map] at hx
  obtain ⟨b, hb, hbx⟩ := hx
  rw [← hbx]
  unfold bandOverlap
  rcases hstop : b.stop with _ | e
  · have h1 : a ≤ max b.start a := le_max_right _ _
    rw [max_eq_left (by linarith), mul_zero]
  · have h1 : min e a ≤ a := min_le_right _ _
    have h2 : a ≤ max b.start a := le_max_right _ _
    rw [max_eq_left (by linarith), mul_zero]

/-- Per-band additivity of the overlap under a middle cut. -/
theorem bandOverlap_additive (x : GasBand) (a b c : ℚ) (hab : a ≤ b)
    (hbc : b ≤ c) : bandOverlap a b x + bandOverlap b c x = bandOverlap a c x := by
  rcases hstop : x.stop with _ | e <;>
    · simp only [bandOverlap, hstop, max_def, min_def]
      split_ifs <;> linarith

/-- Additivity of the accumulated charge under a middle cut. -/
theorem chargeBetween_additive (l : List GasBand) (a b c : ℚ) (hab : a ≤ b)
    (hbc : b ≤ c) :
    chargeBetween l a b + chargeBetween l b c = chargeBetween l a c := by
  induction l with
  | nil => simp [chargeBetween_nil]
  | cons x rest ih =>
    rw [chargeBetween_cons, chargeBetween_cons, chargeBetween_cons]
    have hov := bandOverlap_additive x a b c hab hbc
    linear_combination x.price * hov + ih

/-- Main characterization of the gas loop.  Entering the suffix `bands` at
cumulative level `a` with `remaining = v - a`, the loop breaks at the
first band whose upper bound reaches `v` (every earlier bound lies below
`v`); it reports that band's index in the full list and its price, and
accrues exactly the charge of the range `[a, v]`, which also equals the
crossed-capacities sum plus the remainder at the final band's price. -/
theorem ladderWalk_correct (config : List GasBand) :
    ∀ (bands : List GasBand) (a v tc : ℚ) (st : ℕ) (pr : ℚ),
      contiguousFrom a bands → bands ≠ [] → a < v → covers v bands →
      ∃ k, ∃ hk : k < bands.length,
        (∀ j, ∀ hj : j < k,
          ∃ ej, (bands.get ⟨j, hj.trans hk⟩).stop = some ej ∧ ej < v) ∧
        leStop v (bands.get ⟨k, hk⟩).stop ∧
        ladderWalkGas config tc (v - a) st pr bands =
          (config.indexOf (bands.get ⟨k, hk⟩) + 1, (bands.get ⟨k, hk⟩).price,
            tc + chargeBetween bands a v) ∧
        chargeBetween bands a v =
          ((bands.take k).map (fun b => bandCap b * b.price)).sum
            + (v - (bands.get ⟨k, hk⟩).start) * (bands.get ⟨k, hk⟩).price := by
  intro bands
  induction bands with
  | nil => intro a v tc st pr _ hne _ _; exact absurd rfl hne
  | cons x rest ih =>
    intro a v tc st pr hc hne hav hcov
    obtain ⟨hstart, hrest⟩ := hc
    rcases hstop : x.stop with _ | e
    · rw [hstop] at hrest
      subst hrest
      have hcb : chargeBetween [x] a v = x.price * (v - a) := by
        rw [chargeBetween_cons, chargeBetween_nil,
          bandOverlap_inside x a v hstart (by rw [hstop]; trivial) hav.le,
          add_zero]
      refine ⟨0, by simp, ?_, ?_, ?_, ?_⟩
      · intro j hj; exact absurd hj (Nat.not_lt_zero j)
      · simp [hstop, leStop]
      · simp only [ladderWalkGas, hstop, hcb, List.get]
        refine congrArg _ (congrArg _ ?_)
        ring
      · rw [hcb]
        simp [hstart]
        ring
    · rw [hstop] at hrest
      obtain ⟨hae, hcont⟩ := hrest
      by_cases hve : v ≤ e
      · have hz : chargeBetween rest a v = 0 := by
          refine chargeBetween_zero rest a v (fun b hb => ⟨?_, ?_⟩)
          · exact le_trans hve (contiguous_start_ge rest e hcont b hb)
          · exact le_trans hae.le (contiguous_start_ge rest e hcont b hb)
        have hcb : chargeBetween (x :: rest) a v = x.price * (v - a) := by
          rw [chargeBetween_cons,
            bandOverlap_inside x a v hstart (by rw [hstop]; exact hve) hav.le,
            hz, add_zero]
        refine ⟨0, by simp, ?_, ?_, ?_, ?_⟩
        · intro j hj; exact absurd hj (Nat.not_lt_zero j)
        · simp [hstop, leStop, hve]
        · have hcond : v - a ≤ e - x.start := by rw [hstart]; linarith
          simp only [ladderWalkGas, hstop, if_pos hcond, hcb, List.get]
          refine congrArg _ (congrArg _ ?_)
          ring
        · rw [hcb]
          simp [hstart]
          ring
      · push_neg at hve
        have hrne : rest ≠ [] := by
          intro h
          subst h
          simp only [covers, leStop, hstop] at hcov
          exact absurd hcov (not_le.2 hve)
        rcases rest with _ | ⟨r, rs⟩
        · exact absurd rfl hrne
        have hcov2 : covers v (r :: rs) := by simpa [covers] using hcov
        obtain ⟨k2, hk2, hjp, hls, heq, hsum⟩ :=
          ih e v (tc + (e - a) * x.price) (config.indexOf x + 1) x.price
            hcont (by simp) hve hcov2
        have hshift : chargeBetween (r :: rs) a v = chargeBetween (r :: rs) e v :=
          chargeBetween_shift _ a e v (contiguous_start_ge _ e hcont) hae.le
        have hfull : bandOverlap a v x = e - a :=
          bandOverlap_full x a v e hstart hstop hae hve.le
        have hcb : chargeBetween (x :: r :: rs) a v =
            x.price * (e - a) + chargeBetween (r :: rs) e v := by
          rw [chargeBetween_cons, hfull, hshift]
        have hcond : ¬ (v - a ≤ e - x.start) := by
          rw [hstart]; intro h; linarith
        have harg : v - a - (e - x.start) = v - e := by rw [hstart]; ring
        have hcap : e - x.start = e - a := by rw [hstart]
        refine ⟨k2 + 1, Nat.succ_lt_succ hk2, ?_, ?_, ?_, ?_⟩
        · intro j hj
          match j, hj with
          | 0, _ => exact ⟨e, by simpa using hstop, hve⟩
          | j2 + 1, hj =>
            have := hjp j2 (by omega)
            simpa using this
        · simpa using hls
        · have hcond2 : ¬ (v - a ≤ e - a) := by intro h; linarith
          have harg2 : v - a - (e - a) = v - e := by ring
          have hw : ladderWalkGas config tc (v - a) st pr (x :: r :: rs) =
              ladderWalkGas config (tc + (e - a) * x.price) (v - e)
                (config.indexOf x + 1) x.price (r :: rs) := by
            simp only [ladderWalkGas, hstop, hstart, if_neg hcond2, harg2]
          rw [hw, heq, hcb]
          refine congrArg _ (congrArg _ ?_)
          ring
        · rw [hcb, hsum]
          have hcapx : bandCap x = e - a := by
            simp [bandCap, hstop, hstart]
          simp [hcapx]
          ring

theorem specGasTable_ne_nil : specGasTable ≠ [] := by
  rw [specGasTable]
  exact List.cons_ne_nil _ _

/-- The cost reported by one call is the rounded charge of `[0, volume]`. -/
theorem calculate_cost_eq_round2_chargeBetween (config : List GasBand) (v : ℚ)
    (hne : config ≠ []) (hv : 0 ≤ v) (hcontig : contiguousFrom 0 config)
    (hcov : covers v config) :
    (calculate_cost_by_ladder v config).2.2 = round2 (chargeBetween config 0 v) := by
  rcases eq_or_lt_of_le hv with hv0 | hv0
  · rw [← hv0, chargeBetween_self]
    norm_num [calculate_cost_by_ladder, round2, pyRoundInt]
  · obtain ⟨k, hk, hjp, hls, heq, hsum⟩ :=
      ladderWalk_correct config config 0 v 0 0 0 hcontig hne hv0 hcov
    rw [sub_zero] at heq
    unfold calculate_cost_by_ladder
    rw [if_neg (by simp [hne, hv0.ne'])]
    simp [heq]

/-- C1: for volume > 0 and a non-empty contiguous ascending band table
covering the volume, `calculate_cost_by_ladder` breaks at the band the
volume falls in (index `k`, every earlier bound below the volume, the
final bound at or above it, open bound included), reports the 1-based
stage `k + 1` and that band's own price, and charges each fully crossed
band its capacity `end - start` at its own price plus the remaining
volume `v - start k` at the final band's price, rounded to 2 decimals. -/
theorem C1_cumulative_piecewise_cost (config : List GasBand) (v : ℚ)
    (hne : config ≠ []) (hv : 0 < v) (hcontig : contiguousFrom 0 config)
    (hcov : covers v config) :
    ∃ k, ∃ hk : k < config.length,
      (∀ j, ∀ hj : j < k,
        ∃ ej, (config.get ⟨j, hj.trans hk⟩).stop = some ej ∧ ej < v) ∧
      leStop v (config.get ⟨k, hk⟩).stop ∧
      calculate_cost_by_ladder v config =
        (k + 1, (config.get ⟨k, hk⟩).price,
          round2 (((config.take k).map (fun b => bandCap b * b.price)).sum
            + (v - (config.get ⟨k, hk⟩).start) * (config.get ⟨k, hk⟩).price)) := by
  obtain ⟨k, hk, hjp, hls, heq, hsum⟩ :=
    ladderWalk_correct config config 0 v 0 0 0 hcontig hne hv hcov
  rw [sub_zero] at heq
  have hnodup := contiguous_nodup config 0 hcontig
  have hidx : config.indexOf (config.get ⟨k, hk⟩) = k := by
    simpa using List.get_indexOf hnodup ⟨k, hk⟩
  have hidx2 := List.indexOf_getElem hnodup k hk
  refine ⟨k, hk, hjp, hls, ?_⟩
  unfold calculate_cost_by_ladder
  rw [if_neg (by simp [hne, hv.ne'])]
  simp [heq, hidx, hidx2, hsum]

/-- Witness for C1 at the spec scenario: bands 0-360 at 2.97, 360-540 at
3.56, 540-inf at 4.46 and volume 400 give stage 2, unit price 3.56 and
cost 1211.60 (= 6058/5). -/
theorem C1_cumulative_piecewise_cost_witness :
    (∃ k, ∃ hk : k < specGasTable.length,
      (∀ j, ∀ hj : j < k,
        ∃ ej, (specGasTable.get ⟨j, hj.trans hk⟩).stop = some ej ∧ ej < 400) ∧
      leStop 400 (specGasTable.get ⟨k, hk⟩).stop ∧
      calculate_cost_by_ladder 400 specGasTable =
        (k + 1, (specGasTable.get ⟨k, hk⟩).price,
          round2 (((specGasTable.take k).map (fun b => bandCap b * b.price)).sum
            + (400 - (specGasTable.get ⟨k, hk⟩).start)
              * (specGasTable.get ⟨k, hk⟩).price))) ∧
    calculate_cost_by_ladder 400 specGasTable = (2, 89/25, 6058/5) := by
  constructor
  · exact C1_cumulative_piecewise_cost specGasTable 400 specGasTable_ne_nil
      (by norm_num)
      (by norm_num [contiguousFrom, specGasTable])
      (by norm_num [covers, specGasTable, leStop])
  · have hne12 : (⟨0, some 360, 297/100⟩ : GasBand) ≠ ⟨360, some 540, 89/25⟩ := by
      simp [GasBand.mk.injEq]
    have hidx : List.indexOf (⟨360, some 540, 89/25⟩ : GasBand)
        [(⟨0, some 360, 297/100⟩ : GasBand), ⟨360, some 540, 89/25⟩,
          ⟨540, none, 223/50⟩] = 1 := by
      rw [List.indexOf_cons_ne _ hne12, List.indexOf_cons_self]
    unfold calculate_cost_by_ladder
    rw [if_neg (by norm_num [specGasTable_ne_nil])]
    norm_num [ladderWalkGas, specGasTable, hidx, round2, pyRoundInt]

/-- C8 counterexample: with the spec band table, splitting 0.002 m³ into
two cumulative readings of 0.001 m³ each and rounding each result to two
decimals as the function does breaks additivity: the one-call cost of
0.002 is 0.01, but the rounded cost of 0.001 plus the rounded incremental
charge from 0.001 to 0.002 is 0 + 0 = 0. -/
theorem C8_counterexample_rounded_additivity :
    (calculate_cost_by_ladder (1/500) specGasTable).2.2 ≠
      (calculate_cost_by_ladder (1/1000) specGasTable).2.2 +
        round2 (chargeBetween specGasTable (1/1000) (1/500)) := by
  have h1 : (calculate_cost_by_ladder (1/500) specGasTable).2.2 = 1/100 := by
    unfold calculate_cost_by_ladder
    rw [if_neg (by norm_num [specGasTable_ne_nil])]
    norm_num [ladderWalkGas, specGasTable, round2, pyRoundInt]
  have h2 : (calculate_cost_by_ladder (1/1000) specGasTable).2.2 = 0 := by
    unfold calculate_cost_by_ladder
    rw [if_neg (by norm_num [specGasTable_ne_nil])]
    norm_num [ladderWalkGas, specGasTable, round2, pyRoundInt]
  have h3 : round2 (chargeBetween specGasTable (1/1000) (1/500)) = 0 := by
    norm_num [chargeBetween, bandOverlap, specGasTable, min_def, max_def,
      round2, pyRoundInt]
  rw [h1, h2, h3]
  norm_num

/-- C8 amended: the cumulative charge function is additive exactly,
before rounding: for a well-formed covering table, charge(0, v1) +
charge(v1, v1+v2) = charge(0, v1+v2), and the one-call cost of v1+v2
equals that sum rounded once.  When each of the two parts is itself an
exact two-decimal value (as in the spec's integer example 300 + 100),
rounding the parts separately and summing also reproduces the one-call
cost; for fractional volumes it can differ by a cent. -/
theorem C8_charge_additivity (config : List GasBand) (v1 v2 : ℚ)
    (hne : config ≠ []) (hcontig : contiguousFrom 0 config)
    (h1 : 0 ≤ v1) (h2 : 0 ≤ v2) (hcov : covers (v1 + v2) config) :
    chargeBetween config 0 v1 + chargeBetween config v1 (v1 + v2) =
      chargeBetween config 0 (v1 + v2) ∧
    (calculate_cost_by_ladder (v1 + v2) config).2.2 =
      round2 (chargeBetween config 0 v1 + chargeBetween config v1 (v1 + v2)) ∧
    ∀ n m : ℤ, chargeBetween config 0 v1 = (n : ℚ) / 100 →
      chargeBetween config v1 (v1 + v2) = (m : ℚ) / 100 →
      (calculate_cost_by_ladder (v1 + v2) config).2.2 =
        round2 (chargeBetween config 0 v1) +
          round2 (chargeBetween config v1 (v1 + v2)) := by
  have hadd := chargeBetween_additive config 0 v1 (v1 + v2) h1 (by linarith)
  have hcost := calculate_cost_eq_round2_chargeBetween config (v1 + v2) hne
    (by linarith) hcontig hcov
  refine ⟨hadd, by rw [hcost, hadd], ?_⟩
  intro n m hn hm
  rw [hcost, ← hadd, hn, hm, round2_centi n, round2_centi m]
  have hsum : (n : ℚ) / 100 + (m : ℚ) / 100 = ((n + m : ℤ) : ℚ) / 100 := by
    push_cast; ring
  rw [hsum, round2_centi]

/-- Witness for C8 at the spec example: cost(0 to 300) + charge(300 to 400)
rounded equals cost(0 to 400) in one call (891.00 + 320.60 = 1211.60). -/
theorem C8_charge_additivity_witness :
    (chargeBetween specGasTable 0 300 + chargeBetween specGasTable 300 (300 + 100) =
        chargeBetween specGasTable 0 (300 + 100) ∧
      (calculate_cost_by_ladder (300 + 100) specGasTable).2.2 =
        round2 (chargeBetween specGasTable 0 300 +
          chargeBetween specGasTable 300 (300 + 100)) ∧
      ∀ n m : ℤ, chargeBetween specGasTable 0 300 = (n : ℚ) / 100 →
        chargeBetween specGasTable 300 (300 + 100) = (m : ℚ) / 100 →
        (calculate_cost_by_ladder (300 + 100) specGasTable).2.2 =
          round2 (chargeBetween specGasTable 0 300) +
            round2 (chargeBetween specGasTable 300 (300 + 100))) ∧
    (calculate_cost_by_ladder 400 specGasTable).2.2 =
      (calculate_cost_by_ladder 300 specGasTable).2.2 +
        round2 (chargeBetween specGasTable 300 400) := by
  constructor
  · exact C8_charge_additivity specGasTable 300 100 specGasTable_ne_nil
      (by norm_num [contiguousFrom, specGasTable])
      (by norm_num) (by norm_num)
      (by norm_num [covers, specGasTable, leStop])
  · have h4 : (calculate_cost_by_ladder 400 specGasTable).2.2 = 6058/5 := by
      unfold calculate_cost_by_ladder
      rw [if_neg (by norm_num [specGasTable_ne_nil])]
      norm_num [ladderWalkGas, specGasTable, round2, pyRoundInt]
    have h5 : (calculate_cost_by_ladder 300 specGasTable).2.2 = 891 := by
      unfold calculate_cost_by_ladder
      rw [if_neg (by norm_num [specGasTable_ne_nil])]
      norm_num [ladderWalkGas, specGasTable, round2, pyRoundInt]
    have h6 : round2 (chargeBetween specGasTable 300 400) = 1603/5 := by
      norm_num [chargeBetween, bandOverlap, specGasTable, min_def, max_def,
        round2, pyRoundInt]
    rw [h4, h5, h6]
    norm_num

end HAOS
